import Mathlib

/-
Verification of the weblet single-instance launch coordinator and
window-identification protocol (michalCapo/weblet, src/main.go and the
view package).  Go strings are modelled as lists of characters; the
relevant pieces of Go's strings package (HasPrefix, HasSuffix, Contains,
TrimPrefix, Split, Join) are embedded explicitly, and the launch logic of
WebletManager.Run is embedded both as a sequential function over an
observation environment and as a multi-process transition system.
-/

namespace WebletSpec

/-- Go string (a `string` value), modelled as a list of characters. -/
abbrev GoStr := List Char

/-- strings.ToLower, restricted to per-character lowering. -/
def lower (s : GoStr) : GoStr := s.map Char.toLower

/-- strings.HasPrefix s p : s starts with p. -/
def hasPre (s p : GoStr) : Bool :=
  match s, p with
  | _, [] => true
  | [], _ :: _ => false
  | a :: s, b :: p => a == b && hasPre s p

/-- strings.HasSuffix s p : s ends with p. -/
def hasSuf (s p : GoStr) : Bool := hasPre s.reverse p.reverse

/-- strings.Contains s sub : sub occurs inside s. -/
def containsSub (s sub : GoStr) : Bool :=
  match s with
  | [] => sub.isEmpty
  | _ :: t => hasPre s sub || containsSub t sub

/-- strings.TrimPrefix s p. -/
def trimPre (s p : GoStr) : GoStr :=
  if hasPre s p then s.drop p.length else s

/-- strings.Split s sep for a one-character separator. -/
def splitOnChar (c : Char) : GoStr → List GoStr
  | [] => [[]]
  | a :: rest =>
    let r := splitOnChar c rest
    if a == c then [] :: r
    else
      match r with
      | [] => [[a]]
      | h :: t => (a :: h) :: t

/-- strings.Join parts " " : join with a single space. -/
def joinSpace (xs : List GoStr) : GoStr := List.intercalate [' '] xs

/-- One output line of wmctrl after splitLines + strings.Fields
(main.go lines 1391-1410): the whitespace-separated fields. -/
abbrev Line := List GoStr

/-- The normalized expected class token, strings.ToLower("weblet-" + name)
(main.go line 1074). -/
def clsToken (name : GoStr) : GoStr := lower ("weblet-".toList ++ name)

/-- The class test applied to one `wmctrl -lx` line (main.go lines 1077-1085):
the line must have at least 3 fields, and the lowercased third field must
equal the target, start with target + ".", end with "." + target, or
contain the target. -/
def clsMatches (target : GoStr) (w : Line) : Bool :=
  if 3 ≤ w.length then
    let c := lower (w.getD 2 [])
    c == target || hasPre c (target ++ [ '.' ]) ||
      hasSuf c ([ '.' ] ++ target) || containsSub c target
  else false

/-- The window title of a `wmctrl -l` line: strings.Join(parts[3:], " ")
(main.go line 1103). -/
def titleOf (w : Line) : GoStr := joinSpace (w.drop 3)

/-- The title test applied to one `wmctrl -l` line (main.go lines 1101-1109):
at least 4 fields, and the lowercased title equals the lowercased name or
starts with it followed by a space. -/
def titleMatches (nameLower : GoStr) (w : Line) : Bool :=
  if 4 ≤ w.length then
    let t := lower (titleOf w)
    t == nameLower || hasPre t (nameLower ++ [ ' ' ])
  else false

/-- WebletManager.isWebletWindowOpen (main.go lines 1067-1114).  The two
`Option` arguments are the outcomes of `wmctrl -lx` and `wmctrl -l`:
`none` models the tool being unavailable or exiting with an error, `some
lines` its parsed output.  A tool failure yields `false` on that branch,
never an error. -/
def isWebletWindowOpen (name : GoStr) (lx lw : Option (List Line)) : Bool :=
  (match lx with
   | some lines => lines.any (clsMatches (clsToken name))
   | none => false) ||
  (match lw with
   | none => false
   | some lines => lines.any (titleMatches (lower name)))

/-- The selection made by WebletManager.focusWindowByTitle. -/
inductive FocusSel where
  | byCls (id : GoStr)
  | byTitle (id : GoStr)
  | errListFail
  | errNoWindow
  deriving DecidableEq, Repr

/-- WebletManager.focusWindowByTitle (main.go lines 1203-1253): scan the
`wmctrl -lx` lines for a class match first and focus that window id;
only when no class match exists (or `wmctrl -lx` failed) fall back to the
`wmctrl -l` title scan; if that listing fails, report an error. -/
def focusWindowByTitle (name : GoStr) (lx lw : Option (List Line)) : FocusSel :=
  let clsScan : Option Line :=
    match lx with
    | some lines => lines.find? (clsMatches (clsToken name))
    | none => none
  match clsScan with
  | some w => .byCls (w.getD 0 [])
  | none =>
    match lw with
    | none => .errListFail
    | some lines =>
      match lines.find? (titleMatches (lower name)) with
      | some w => .byTitle (w.getD 0 [])
      | none => .errNoWindow

/-- The second-level domain label extracted in isChromeWebletWindowOpen
(main.go lines 1133-1140): strip a leading "www." from the host, split on
".", and if at least two labels remain take parts[len(parts)-2]. -/
def sldOf (host : GoStr) : Option GoStr :=
  let parts := splitOnChar '.' (trimPre host "www.".toList)
  if 2 ≤ parts.length then some (parts.getD (parts.length - 2) []) else none

/-- The candidate titles of isChromeWebletWindowOpen (main.go lines
1130-1140): the lowercased name, plus the lowercased second-level domain
label when the URL parses and the host has at least two labels.  `host =
none` models url.Parse failing. -/
def possibleTitles (name : GoStr) (host : Option GoStr) : List GoStr :=
  let base := [lower name]
  match host with
  | none => base
  | some h =>
    match sldOf h with
    | some sld => base ++ [lower sld]
    | none => base

/-- The per-line test of isChromeWebletWindowOpen (main.go lines
1142-1155): at least 4 fields and the lowercased title contains one of
the candidate strings. -/
def chromeTitleMatches (titles : List GoStr) (w : Line) : Bool :=
  if 4 ≤ w.length then
    titles.any (fun t => containsSub (lower (titleOf w)) t)
  else false

/-- WebletManager.isChromeWebletWindowOpen (main.go lines 1118-1158).
`lw` is the outcome of `wmctrl -l` (`none` = error), `host` the parsed
URL host (`none` = url.Parse error). -/
def isChromeWebletWindowOpen (name : GoStr) (host : Option GoStr)
    (lw : Option (List Line)) : Bool :=
  match lw with
  | none => false
  | some lines => lines.any (chromeTitleMatches (possibleTitles name host))

/-! Sequential model of WebletManager.Run (main.go lines 791-892) and
runWithChrome (lines 896-963).  One invocation is modelled as a function
of its configuration and of the observations it would make of the outside
world; the lock file state is threaded through the function, which bakes
in the single-process (no concurrent interference) semantics. -/

/-- The staleness threshold, 10*time.Second (main.go line 847), in ms. -/
def staleThresholdMs : Nat := 10000

/-- The number of poll attempts in the wait loop (main.go line 839). -/
def pollAttempts : Nat := 20

/-- The poll sleep interval, 200*time.Millisecond (main.go line 840). -/
def pollIntervalMs : Nat := 200

/-- The total wait budget of the poll loop. -/
def waitBudgetMs : Nat := pollAttempts * pollIntervalMs

/-- Observations runWithChrome would make (main.go lines 896-963). -/
structure ChromeEnv where
  chromeProcRunning : Bool
  focusAnyOk : Bool
  windowOpen : Bool
  focusTitleOk : Bool
  chromeWindowOpen : Bool
  focusChromeOk : Bool
  browserFound : Bool
  startOk : Bool
  deriving DecidableEq, Repr

/-- Result of runWithChrome. -/
inductive ChromeOutcome where
  | focusedNote (ok : Bool)
  | focusTitle (ok : Bool)
  | focusChrome (ok : Bool)
  | errNoBrowser
  | errStart
  | started
  deriving DecidableEq, Repr

/-- WebletManager.runWithChrome (main.go lines 896-963): if a Chrome
process with this weblet's user-data-dir is running, try every focus
method but return nil regardless (a failure only prints a note, line
906-909); otherwise fall back to the window-class check, then the
Chrome-title check, each returning the focus attempt's result; otherwise
locate a browser and start it. -/
def runWithChrome (e : ChromeEnv) : ChromeOutcome :=
  if e.chromeProcRunning then .focusedNote e.focusAnyOk
  else if e.windowOpen then .focusTitle e.focusTitleOk
  else if e.chromeWindowOpen then .focusChrome e.focusChromeOk
  else if e.browserFound = false then .errNoBrowser
  else if e.startOk = false then .errStart
  else .started

/-- Fixed configuration of one Run invocation: whether the name is in
the weblet map (main.go line 792), its UseChrome flag (line 798), the
WEBLET_BACKGROUND environment flag (line 803), and the Chrome-path
observations. -/
structure RunCfg where
  found : Bool
  useChrome : Bool
  isBackground : Bool
  chrome : ChromeEnv

/-- Observations one round of Run would make of the outside world:
the initial window probe (line 806), the background double-check (line
825), the poll-loop probes (line 841), the lock file age at the stale
check (line 847), and the success of focusing, executable resolution
(line 857) and process start (line 880). -/
structure RoundObs where
  windowOpen0 : Bool
  windowOpenW : Bool
  windowPoll : Nat → Bool
  lockAgeMs : Nat
  focusOk : Bool
  execOk : Bool
  startOk : Bool

/-- Result of one Run invocation. -/
inductive RunOutcome where
  | errNotFound
  | chrome (c : ChromeOutcome)
  | focusResult (ok : Bool)
  | backgroundNoop
  | backgroundClean
  | ranWebview
  | started
  | errTimeout
  | errSpawn
  | fuelOut
  deriving DecidableEq, Repr

/-- Outcome, lock file state at exit, and number of stale-reclaim
recursions taken. -/
structure RunRes where
  outcome : RunOutcome
  lockAfter : Bool
  retries : Nat
  deriving DecidableEq, Repr

/-- The first poll attempt (out of pollAttempts) at which a window is
observed (main.go lines 839-844). -/
def firstPoll (p : Nat → Bool) : Option Nat :=
  (List.range pollAttempts).find? (fun i => p i)

/-- WebletManager.Run (main.go lines 791-892), sequential semantics.
`round` selects the observation set of the current (re-)invocation;
`lock` is whether the lock file exists at the O_EXCL attempt, threaded
through stale reclamation (line 848 removes it before the recursive call
at line 849).  Branches, in source order: unknown name (792-795); Chrome
mode (798-800); initial window probe (806-813, where a background worker
returns nil without touching the lock, lines 808-811); the background
worker body (820-832: deferred lock removal, double-check, RunWebview);
the parent O_EXCL attempt (835): on failure the poll loop (838-844),
then the stale check (845-852); on success the spawn sequence (856-891),
removing the lock before reporting a spawn failure (859, 881). -/
def runSeq (cfg : RunCfg) (obs : Nat → RoundObs) :
    Nat → Nat → Bool → RunRes
  | 0, _, lock => ⟨.fuelOut, lock, 0⟩
  | fuel + 1, round, lock =>
    let e := obs round
    if cfg.found = false then ⟨.errNotFound, lock, 0⟩
    else if cfg.useChrome then ⟨.chrome (runWithChrome cfg.chrome), lock, 0⟩
    else if e.windowOpen0 then
      if cfg.isBackground then ⟨.backgroundNoop, lock, 0⟩
      else ⟨.focusResult e.focusOk, lock, 0⟩
    else if cfg.isBackground then
      if e.windowOpenW then ⟨.backgroundClean, false, 0⟩
      else ⟨.ranWebview, false, 0⟩
    else if lock then
      match firstPoll e.windowPoll with
      | some _ => ⟨.focusResult e.focusOk, true, 0⟩
      | none =>
        if staleThresholdMs < e.lockAgeMs then
          let r := runSeq cfg obs fuel (round + 1) false
          ⟨r.outcome, r.lockAfter, r.retries + 1⟩
        else ⟨.errTimeout, true, 0⟩
    else
      if e.execOk = false then ⟨.errSpawn, false, 0⟩
      else if e.startOk = false then ⟨.errSpawn, false, 0⟩
      else ⟨.started, true, 0⟩

/-- Process exit code of a weblet <name> invocation: main (main.go lines
1995-1999) exits 1 when Run returns an error and falls through to exit 0
otherwise.  runWithChrome returns nil on the focusedNote path even when
focusing failed (lines 906-911). -/
def chromeExitCode : ChromeOutcome → Nat
  | .focusedNote _ => 0
  | .focusTitle ok => if ok then 0 else 1
  | .focusChrome ok => if ok then 0 else 1
  | .errNoBrowser => 1
  | .errStart => 1
  | .started => 0

/-- Exit code from a RunOutcome (main.go lines 1995-1999). -/
def exitCode : RunOutcome → Nat
  | .errNotFound => 1
  | .chrome c => chromeExitCode c
  | .focusResult ok => if ok then 0 else 1
  | .errTimeout => 1
  | .errSpawn => 1
  | .fuelOut => 1
  | _ => 0

/-! Concurrent model of the launch coordination protocol (main.go lines
791-892 plus view.RunWebview): n independent invocations of Run for the
same name race against a shared lock file, window state and display
process count.  Each process slot covers a foreground invocation and the
background worker it spawns.  The clock `now` (ms) advances arbitrarily;
lock creation records its time, and the stale check compares ages
against staleThresholdMs exactly as the source does. -/

/-- Control state of one invocation (parent plus its worker). -/
inductive PSt where
  | idle
  | tryAcquire
  | acquired
  | spawnFailed
  | waiting (k : Nat)
  | attached
  | timedOut
  | wProbe
  | wLocked
  | wReady
  | displaying
  | wExitStale
  | wExitClean
  deriving DecidableEq, Repr

/-- Shared state of the n-process race for one application name. -/
structure CState (n : Nat) where
  now : Nat
  lockT : Option Nat
  windowOpen : Bool
  displays : Nat
  procs : Fin n → PSt

/-- A process holds the per-name lock file (from the successful O_EXCL
create, main.go line 835, until its worker exits or the spawn fails). -/
def isCritical : PSt → Bool
  | .acquired => true
  | .wProbe => true
  | .wLocked => true
  | .wReady => true
  | .displaying => true
  | _ => false

/-- Initial state: no lock, no window, no display process, every
invocation about to enter Run. -/
def initState (n : Nat) : CState n :=
  ⟨0, none, false, 0, fun _ => .idle⟩

/-- Update one process slot. -/
def setProc {n : Nat} (s : CState n) (i : Fin n) (p : PSt) : Fin n → PSt :=
  fun j => if j = i then p else s.procs j

/-- One interleaved step of the race.  Constructors mirror the source:
`probeFound`/`probeEmpty` are the initial isWebletWindowOpen probe (line
806); `lockWin`/`lockLose` the O_EXCL create (line 835); `spawnOk` the
successful detach of the background worker (lines 863-888); `spawnFail`
the executable/start failure that removes the lock (lines 857-883);
`wProbeFound` the worker's initial probe finding a window and returning
without touching the lock (lines 808-811); `wProbeEmpty` the worker
reaching the deferred lock removal (line 822); `wRecheckFound` the
worker's double-check finding a window and exiting, its defer removing
the lock (lines 825-827); `wRecheckEmpty` the double-check passing;
`wStart` view.RunWebview creating the display process and its window
(line 830); `pollFound`/`pollEmpty` the wait loop (lines 839-844);
`timeoutGone`/`timeoutYoung` the timeout report (line 852); and
`staleReclaim` the stale-lock removal and retry (lines 846-850). -/
inductive Step (n : Nat) : CState n → CState n → Prop where
  | tick (s : CState n) (d : Nat) :
      Step n s { s with now := s.now + d }
  | probeFound (s : CState n) (i : Fin n)
      (h : s.procs i = .idle) (hw : s.windowOpen = true) :
      Step n s { s with procs := setProc s i .attached }
  | probeEmpty (s : CState n) (i : Fin n)
      (h : s.procs i = .idle) (hw : s.windowOpen = false) :
      Step n s { s with procs := setProc s i .tryAcquire }
  | lockWin (s : CState n) (i : Fin n)
      (h : s.procs i = .tryAcquire) (hl : s.lockT = none) :
      Step n s { s with lockT := some s.now, procs := setProc s i .acquired }
  | lockLose (s : CState n) (i : Fin n) (t : Nat)
      (h : s.procs i = .tryAcquire) (hl : s.lockT = some t) :
      Step n s { s with procs := setProc s i (.waiting pollAttempts) }
  | spawnOk (s : CState n) (i : Fin n)
      (h : s.procs i = .acquired) :
      Step n s { s with procs := setProc s i .wProbe }
  | spawnFail (s : CState n) (i : Fin n)
      (h : s.procs i = .acquired) :
      Step n s { s with lockT := none, procs := setProc s i .spawnFailed }
  | wProbeFound (s : CState n) (i : Fin n)
      (h : s.procs i = .wProbe) (hw : s.windowOpen = true) :
      Step n s { s with procs := setProc s i .wExitStale }
  | wProbeEmpty (s : CState n) (i : Fin n)
      (h : s.procs i = .wProbe) (hw : s.windowOpen = false) :
      Step n s { s with procs := setProc s i .wLocked }
  | wRecheckFound (s : CState n) (i : Fin n)
      (h : s.procs i = .wLocked) (hw : s.windowOpen = true) :
      Step n s { s with lockT := none, procs := setProc s i .wExitClean }
  | wRecheckEmpty (s : CState n) (i : Fin n)
      (h : s.procs i = .wLocked) (hw : s.windowOpen = false) :
      Step n s { s with procs := setProc s i .wReady }
  | wStart (s : CState n) (i : Fin n)
      (h : s.procs i = .wReady) :
      Step n s { s with windowOpen := true, displays := s.displays + 1,
                        procs := setProc s i .displaying }
  | pollFound (s : CState n) (i : Fin n) (k : Nat)
      (h : s.procs i = .waiting (k + 1)) (hw : s.windowOpen = true) :
      Step n s { s with procs := setProc s i .attached }
  | pollEmpty (s : CState n) (i : Fin n) (k : Nat)
      (h : s.procs i = .waiting (k + 1)) (hw : s.windowOpen = false) :
      Step n s { s with procs := setProc s i (.waiting k) }
  | timeoutGone (s : CState n) (i : Fin n)
      (h : s.procs i = .waiting 0) (hl : s.lockT = none) :
      Step n s { s with procs := setProc s i .timedOut }
  | timeoutYoung (s : CState n) (i : Fin n) (t : Nat)
      (h : s.procs i = .waiting 0) (hl : s.lockT = some t)
      (ha : s.now - t ≤ staleThresholdMs) :
      Step n s { s with procs := setProc s i .timedOut }
  | staleReclaim (s : CState n) (i : Fin n) (t : Nat)
      (h : s.procs i = .waiting 0) (hl : s.lockT = some t)
      (ha : staleThresholdMs < s.now - t) :
      Step n s { s with lockT := none, procs := setProc s i .idle }

/-- Reachability of the race from the n-process initial state. -/
def Reachable (n : Nat) (s : CState n) : Prop :=
  Relation.ReflTransGen (Step n) (initState n) s

/-- The inductive invariant of the race. -/
structure Inv (n : Nat) (s : CState n) : Prop where
  displaysLe : s.displays ≤ 1
  windowIff : s.windowOpen = true ↔ s.displays = 1
  uniqueCrit : ∀ i j, isCritical (s.procs i) = true →
    isCritical (s.procs j) = true → i = j
  lockNone : s.lockT = none → ∀ i, isCritical (s.procs i) = false
  lockTime : ∀ t, s.lockT = some t → t ≤ s.now
  readyNoWin : ∀ i, s.procs i = .wReady → s.windowOpen = false
  displayingOne : ∀ i, s.procs i = .displaying → s.displays = 1
  attachedOne : ∀ i, s.procs i = .attached → s.displays = 1

theorem setProc_self {n : Nat} (s : CState n) (i : Fin n) (p : PSt) :
    setProc s i p i = p := by
  simp [setProc]

theorem setProc_ne {n : Nat} (s : CState n) (i j : Fin n) (p : PSt)
    (h : j ≠ i) : setProc s i p j = s.procs j := by
  simp [setProc, h]

/-- Clock monotonicity: no step moves time backwards. -/
theorem step_now_le {n : Nat} {s t : CState n} (h : Step n s t) :
    s.now ≤ t.now := by
  cases h <;> simp

/-- The initial state satisfies the invariant. -/
theorem inv_init (n : Nat) : Inv n (initState n) := by
  refine ⟨by simp [initState], by simp [initState], ?_, ?_, ?_, ?_, ?_, ?_⟩ <;>
    intro a <;> simp [initState, isCritical] at *

/-- Invariant preservation for steps that only rewrite one process slot. -/
theorem inv_update_proc {n : Nat} {s : CState n} (hs : Inv n s)
    (i : Fin n) (p : PSt)
    (hp : isCritical p = true → isCritical (s.procs i) = true)
    (hready : p = .wReady → s.windowOpen = false)
    (hdisp : p = .displaying → s.displays = 1)
    (hatt : p = .attached → s.displays = 1) :
    Inv n { s with procs := setProc s i p } := by
  refine ⟨hs.displaysLe, hs.windowIff, ?_, ?_, hs.lockTime, ?_, ?_, ?_⟩
  · intro a b ha hb
    dsimp only at ha hb
    by_cases hai : a = i
    · by_cases hbi : b = i
      · rw [hai, hbi]
      · rw [hai, setProc_self] at ha
        rw [setProc_ne _ _ _ _ hbi] at hb
        rw [hai]
        exact hs.uniqueCrit i b (hp ha) hb
    · by_cases hbi : b = i
      · rw [hbi, setProc_self] at hb
        rw [setProc_ne _ _ _ _ hai] at ha
        rw [hbi]
        exact hs.uniqueCrit a i ha (hp hb)
      · rw [setProc_ne _ _ _ _ hai] at ha
        rw [setProc_ne _ _ _ _ hbi] at hb
        exact hs.uniqueCrit a b ha hb
  · intro hl j
    dsimp only
    by_cases hji : j = i
    · rw [hji, setProc_self]
      rcases hcp : isCritical p
      · rfl
      · have h1 := hp hcp
        rw [hs.lockNone hl i] at h1
        exact (Bool.false_ne_true h1).elim
    · rw [setProc_ne _ _ _ _ hji]
      exact hs.lockNone hl j
  · intro j hj
    dsimp only at hj
    by_cases hji : j = i
    · rw [hji, setProc_self] at hj
      exact hready hj
    · rw [setProc_ne _ _ _ _ hji] at hj
      exact hs.readyNoWin j hj
  · intro j hj
    dsimp only at hj
    by_cases hji : j = i
    · rw [hji, setProc_self] at hj
      exact hdisp hj
    · rw [setProc_ne _ _ _ _ hji] at hj
      exact hs.displayingOne j hj
  · intro j hj
    dsimp only at hj
    by_cases hji : j = i
    · rw [hji, setProc_self] at hj
      exact hatt hj
    · rw [setProc_ne _ _ _ _ hji] at hj
      exact hs.attachedOne j hj

/-- Invariant preservation for steps that release the lock while the
acting process i (previously critical) leaves the critical region. -/
theorem inv_release {n : Nat} {s : CState n} (hs : Inv n s)
    (i : Fin n) (p : PSt)
    (hcrit : isCritical (s.procs i) = true)
    (hpnc : isCritical p = false)
    (hready : p = .wReady → s.windowOpen = false)
    (hdisp : p = .displaying → s.displays = 1)
    (hatt : p = .attached → s.displays = 1) :
    Inv n { s with lockT := none, procs := setProc s i p } := by
  refine ⟨hs.displaysLe, hs.windowIff, ?_, ?_, ?_, ?_, ?_, ?_⟩
  · intro a b ha hb
    dsimp only at ha hb
    by_cases hai : a = i
    · rw [hai, setProc_self, hpnc] at ha
      exact (Bool.false_ne_true ha).elim
    · by_cases hbi : b = i
      · rw [hbi, setProc_self, hpnc] at hb
        exact (Bool.false_ne_true hb).elim
      · rw [setProc_ne _ _ _ _ hai] at ha
        rw [setProc_ne _ _ _ _ hbi] at hb
        exact hs.uniqueCrit a b ha hb
  · intro _ j
    dsimp only
    by_cases hji : j = i
    · rw [hji, setProc_self]
      exact hpnc
    · rw [setProc_ne _ _ _ _ hji]
      rcases hcj : isCritical (s.procs j)
      · rfl
      · exact absurd (hs.uniqueCrit j i hcj hcrit) hji
  · intro t ht
    exact Option.noConfusion ht
  · intro j hj
    dsimp only at hj
    by_cases hji : j = i
    · rw [hji, setProc_self] at hj
      exact hready hj
    · rw [setProc_ne _ _ _ _ hji] at hj
      exact hs.readyNoWin j hj
  · intro j hj
    dsimp only at hj
    by_cases hji : j = i
    · rw [hji, setProc_self] at hj
      exact hdisp hj
    · rw [setProc_ne _ _ _ _ hji] at hj
      exact hs.displayingOne j hj
  · intro j hj
    dsimp only at hj
    by_cases hji : j = i
    · rw [hji, setProc_self] at hj
      exact hatt hj
    · rw [setProc_ne _ _ _ _ hji] at hj
      exact hs.attachedOne j hj

/-- Invariant preservation for the lock-acquisition step. -/
theorem inv_lockWin {n : Nat} {s : CState n} (hs : Inv n s) (i : Fin n)
    (hl : s.lockT = none) :
    Inv n { s with lockT := some s.now, procs := setProc s i .acquired } := by
  refine ⟨hs.displaysLe, hs.windowIff, ?_, ?_, ?_, ?_, ?_, ?_⟩
  · intro a b ha hb
    dsimp only at ha hb
    by_cases hai : a = i
    · by_cases hbi : b = i
      · rw [hai, hbi]
      · rw [setProc_ne _ _ _ _ hbi] at hb
        rw [hs.lockNone hl b] at hb
        exact (Bool.false_ne_true hb).elim
    · rw [setProc_ne _ _ _ _ hai] at ha
      rw [hs.lockNone hl a] at ha
      exact (Bool.false_ne_true ha).elim
  · intro hnone
    exact (Option.some_ne_none _ hnone).elim
  · intro t ht
    dsimp only at ht
    injection ht with h2
    exact Nat.le_of_eq h2.symm
  · intro j hj
    dsimp only at hj
    by_cases hji : j = i
    · rw [hji, setProc_self] at hj
      exact PSt.noConfusion hj
    · rw [setProc_ne _ _ _ _ hji] at hj
      exact hs.readyNoWin j hj
  · intro j hj
    dsimp only at hj
    by_cases hji : j = i
    · rw [hji, setProc_self] at hj
      exact PSt.noConfusion hj
    · rw [setProc_ne _ _ _ _ hji] at hj
      exact hs.displayingOne j hj
  · intro j hj
    dsimp only at hj
    by_cases hji : j = i
    · rw [hji, setProc_self] at hj
      exact PSt.noConfusion hj
    · rw [setProc_ne _ _ _ _ hji] at hj
      exact hs.attachedOne j hj

/-- Invariant preservation for the display-creation step. -/
theorem inv_wStart {n : Nat} {s : CState n} (hs : Inv n s) (i : Fin n)
    (h : s.procs i = .wReady) :
    Inv n { s with windowOpen := true, displays := s.displays + 1,
                   procs := setProc s i .displaying } := by
  have hw0 : s.windowOpen = false := hs.readyNoWin i h
  have hcrit : isCritical (s.procs i) = true := by rw [h]; rfl
  have hd0 : s.displays = 0 := by
    have h1 := hs.displaysLe
    have h2 : s.displays ≠ 1 := by
      intro hd
      have h3 := (hs.windowIff).mpr hd
      rw [hw0] at h3
      exact Bool.false_ne_true h3
    omega
  refine ⟨by show s.displays + 1 ≤ 1; omega,
    by show (true = true) ↔ (s.displays + 1 = 1); simp [hd0], ?_, ?_, ?_, ?_, ?_, ?_⟩
  · intro a b ha hb
    dsimp only at ha hb
    by_cases hai : a = i
    · by_cases hbi : b = i
      · rw [hai, hbi]
      · rw [setProc_ne _ _ _ _ hbi] at hb
        rw [hai]
        exact hs.uniqueCrit i b hcrit hb
    · by_cases hbi : b = i
      · rw [setProc_ne _ _ _ _ hai] at ha
        rw [hbi]
        exact hs.uniqueCrit a i ha hcrit
      · rw [setProc_ne _ _ _ _ hai] at ha
        rw [setProc_ne _ _ _ _ hbi] at hb
        exact hs.uniqueCrit a b ha hb
  · intro hl
    have h4 := hs.lockNone hl i
    rw [hcrit] at h4
    exact Bool.noConfusion h4
  · intro t ht
    exact hs.lockTime t ht
  · intro j hj
    dsimp only at hj
    by_cases hji : j = i
    · rw [hji, setProc_self] at hj
      exact PSt.noConfusion hj
    · rw [setProc_ne _ _ _ _ hji] at hj
      have hcj : isCritical (s.procs j) = true := by rw [hj]; rfl
      exact absurd (hs.uniqueCrit j i hcj hcrit) hji
  · intro j hj
    show s.displays + 1 = 1
    omega
  · intro j hj
    dsimp only at hj
    show s.displays + 1 = 1
    by_cases hji : j = i
    · rw [hji, setProc_self] at hj
      exact PSt.noConfusion hj
    · rw [setProc_ne _ _ _ _ hji] at hj
      have h5 := hs.attachedOne j hj
      omega

/-- Every step of the race preserves the invariant, as long as the trace
stays within the staleness window (which rules the stale-reclaim step
out: a lock created during the trace cannot have aged past the
threshold). -/
theorem inv_step {n : Nat} {s t : CState n} (hs : Inv n s)
    (hstep : Step n s t) (hb : t.now ≤ staleThresholdMs) : Inv n t := by
  cases hstep with
  | tick d =>
      refine ⟨hs.displaysLe, hs.windowIff, hs.uniqueCrit, hs.lockNone, ?_,
        hs.readyNoWin, hs.displayingOne, hs.attachedOne⟩
      intro u hu
      exact le_trans (hs.lockTime u hu) (Nat.le_add_right _ _)
  | probeFound i h hw =>
      exact inv_update_proc hs i .attached (by simp [isCritical])
        (by intro h2; exact PSt.noConfusion h2)
        (by intro h2; exact PSt.noConfusion h2)
        (fun _ => (hs.windowIff).mp hw)
  | probeEmpty i h hw =>
      exact inv_update_proc hs i .tryAcquire (by simp [isCritical])
        (by intro h2; exact PSt.noConfusion h2)
        (by intro h2; exact PSt.noConfusion h2)
        (by intro h2; exact PSt.noConfusion h2)
  | lockWin i h hl =>
      exact inv_lockWin hs i hl
  | lockLose i u h hl =>
      exact inv_update_proc hs i (.waiting pollAttempts) (by simp [isCritical])
        (by intro h2; exact PSt.noConfusion h2)
        (by intro h2; exact PSt.noConfusion h2)
        (by intro h2; exact PSt.noConfusion h2)
  | spawnOk i h =>
      exact inv_update_proc hs i .wProbe (fun _ => by rw [h]; rfl)
        (by intro h2; exact PSt.noConfusion h2)
        (by intro h2; exact PSt.noConfusion h2)
        (by intro h2; exact PSt.noConfusion h2)
  | spawnFail i h =>
      exact inv_release hs i .spawnFailed (by rw [h]; rfl) rfl
        (by intro h2; exact PSt.noConfusion h2)
        (by intro h2; exact PSt.noConfusion h2)
        (by intro h2; exact PSt.noConfusion h2)
  | wProbeFound i h hw =>
      exact inv_update_proc hs i .wExitStale (by simp [isCritical])
        (by intro h2; exact PSt.noConfusion h2)
        (by intro h2; exact PSt.noConfusion h2)
        (by intro h2; exact PSt.noConfusion h2)
  | wProbeEmpty i h hw =>
      exact inv_update_proc hs i .wLocked (fun _ => by rw [h]; rfl)
        (by intro h2; exact PSt.noConfusion h2)
        (by intro h2; exact PSt.noConfusion h2)
        (by intro h2; exact PSt.noConfusion h2)
  | wRecheckFound i h hw =>
      exact inv_release hs i .wExitClean (by rw [h]; rfl) rfl
        (by intro h2; exact PSt.noConfusion h2)
        (by intro h2; exact PSt.noConfusion h2)
        (by intro h2; exact PSt.noConfusion h2)
  | wRecheckEmpty i h hw =>
      exact inv_update_proc hs i .wReady (fun _ => by rw [h]; rfl)
        (fun _ => hw)
        (by intro h2; exact PSt.noConfusion h2)
        (by intro h2; exact PSt.noConfusion h2)
  | wStart i h =>
      exact inv_wStart hs i h
  | pollFound i k h hw =>
      exact inv_update_proc hs i .attached (by simp [isCritical])
        (by intro h2; exact PSt.noConfusion h2)
        (by intro h2; exact PSt.noConfusion h2)
        (fun _ => (hs.windowIff).mp hw)
  | pollEmpty i k h hw =>
      exact inv_update_proc hs i (.waiting k) (by simp [isCritical])
        (by intro h2; exact PSt.noConfusion h2)
        (by intro h2; exact PSt.noConfusion h2)
        (by intro h2; exact PSt.noConfusion h2)
  | timeoutGone i h hl =>
      exact inv_update_proc hs i .timedOut (by simp [isCritical])
        (by intro h2; exact PSt.noConfusion h2)
        (by intro h2; exact PSt.noConfusion h2)
        (by intro h2; exact PSt.noConfusion h2)
  | timeoutYoung i u h hl ha =>
      exact inv_update_proc hs i .timedOut (by simp [isCritical])
        (by intro h2; exact PSt.noConfusion h2)
        (by intro h2; exact PSt.noConfusion h2)
        (by intro h2; exact PSt.noConfusion h2)
  | staleReclaim i u h hl ha =>
      have h1 := hs.lockTime u hl
      have h2 : s.now ≤ staleThresholdMs := hb
      exact absurd ha (by omega)

/-- Every state reachable within the staleness window satisfies the
invariant. -/
theorem inv_reachable {n : Nat} :
    ∀ {s : CState n}, Reachable n s → s.now ≤ staleThresholdMs → Inv n s := by
  intro s h
  unfold Reachable at h
  induction h with
  | refl => intro _; exact inv_init n
  | tail hr hstep ih =>
      intro hb
      exact inv_step (ih (le_trans (step_now_le hstep) hb)) hstep hb

/-- ToLower preserves HasPrefix: a prefix stays a prefix after
per-character lowering. -/
theorem hasPre_map_toLower (s p : GoStr) (h : hasPre s p = true) :
    hasPre (lower s) (lower p) = true := by
  induction s generalizing p with
  | nil =>
      cases p with
      | nil => rfl
      | cons b q => simp [hasPre] at h
  | cons a t ih =>
      cases p with
      | nil => rfl
      | cons b q =>
          simp only [hasPre, Bool.and_eq_true, beq_iff_eq] at h
          obtain ⟨h1, h2⟩ := h
          simp only [lower, List.map_cons, hasPre, Bool.and_eq_true, beq_iff_eq]
          exact ⟨by rw [h1], ih q h2⟩

/-- ToLower preserves Contains: a substring stays a substring after
per-character lowering. -/
theorem containsSub_map_toLower (s sub : GoStr) (h : containsSub s sub = true) :
    containsSub (lower s) (lower sub) = true := by
  induction s with
  | nil =>
      cases sub with
      | nil => rfl
      | cons b q => simp [containsSub] at h
  | cons a t ih =>
      have h2 : (hasPre (a :: t) sub || containsSub t sub) = true := h
      rcases Bool.or_eq_true_iff.mp h2 with h3 | h3
      · show (hasPre (lower (a :: t)) (lower sub) ||
          containsSub (lower t) (lower sub)) = true
        exact Bool.or_eq_true_iff.mpr (Or.inl (hasPre_map_toLower (a :: t) sub h3))
      · show (hasPre (lower (a :: t)) (lower sub) ||
          containsSub (lower t) (lower sub)) = true
        exact Bool.or_eq_true_iff.mpr (Or.inr (ih h3))

/-- A re-invocation launched after the stale-lock removal finds no lock
at its O_EXCL attempt and therefore never takes the stale-reclaim branch
again: zero further recursions, and fuel 1 already suffices. -/
theorem runSeq_noLock (cfg : RunCfg) (obs : Nat → RoundObs)
    (fuel round : Nat) :
    (runSeq cfg obs (fuel + 1) round false).retries = 0 ∧
    (runSeq cfg obs (fuel + 1) round false).outcome ≠ .fuelOut := by
  simp only [runSeq]
  split_ifs <;> simp_all

/-! Claim theorems. -/

/-- C1: among any number of concurrent Run invocations for one name with
no pre-existing window, as long as the race stays within the staleness
window (which is what makes the invocations concurrent: the stale-reclaim
branch cannot fire for a lock created during the race), at most one
display process is ever started; once the winning worker is displaying,
exactly one has been started; an invocation that attached did so to that
one window; and the lock region — from the successful O_EXCL create to
worker exit — is occupied by at most one invocation at a time, so only
the exclusive-create winner spawns the background worker. -/
theorem C1_at_most_one_display (n : Nat) (s : CState n)
    (h : Reachable n s) (hb : s.now ≤ staleThresholdMs) :
    s.displays ≤ 1 ∧
    (∀ i, s.procs i = PSt.displaying → s.displays = 1) ∧
    (∀ i, s.procs i = PSt.attached → s.displays = 1) ∧
    (∀ i j, isCritical (s.procs i) = true → isCritical (s.procs j) = true →
      i = j) := by
  have hinv := inv_reachable h hb
  exact ⟨hinv.displaysLe, hinv.displayingOne, hinv.attachedOne, hinv.uniqueCrit⟩

/-- Demonstration trace for C1: two racing invocations, process 0 probes,
wins the lock, spawns its worker, which rechecks and starts the display. -/
def c1w0 : CState 2 := initState 2

/-- After process 0 finds no window. -/
def c1w1 : CState 2 := { c1w0 with procs := setProc c1w0 0 .tryAcquire }

/-- After process 0 wins the O_EXCL create. -/
def c1w2 : CState 2 :=
  { c1w1 with lockT := some c1w1.now, procs := setProc c1w1 0 .acquired }

/-- After process 0 spawns its background worker. -/
def c1w3 : CState 2 := { c1w2 with procs := setProc c1w2 0 .wProbe }

/-- After the worker's initial probe finds no window. -/
def c1w4 : CState 2 := { c1w3 with procs := setProc c1w3 0 .wLocked }

/-- After the worker's double-check finds no window. -/
def c1w5 : CState 2 := { c1w4 with procs := setProc c1w4 0 .wReady }

/-- After the worker starts the display process. -/
def c1w6 : CState 2 :=
  { c1w5 with windowOpen := true, displays := c1w5.displays + 1,
              procs := setProc c1w5 0 .displaying }

/-- The demonstration trace is a run of the race model. -/
theorem c1_trace : Reachable 2 c1w6 := by
  have s1 : Step 2 c1w0 c1w1 := Step.probeEmpty c1w0 0 rfl rfl
  have s2 : Step 2 c1w1 c1w2 := Step.lockWin c1w1 0 (by decide) rfl
  have s3 : Step 2 c1w2 c1w3 := Step.spawnOk c1w2 0 (by decide)
  have s4 : Step 2 c1w3 c1w4 := Step.wProbeEmpty c1w3 0 (by decide) rfl
  have s5 : Step 2 c1w4 c1w5 := Step.wRecheckEmpty c1w4 0 (by decide) rfl
  have s6 : Step 2 c1w5 c1w6 := Step.wStart c1w5 0 (by decide)
  exact Relation.ReflTransGen.tail (Relation.ReflTransGen.tail
    (Relation.ReflTransGen.tail (Relation.ReflTransGen.tail
      (Relation.ReflTransGen.tail (Relation.ReflTransGen.single s1)
        s2) s3) s4) s5) s6

/-- Witness for C1 at the end of the demonstration trace. -/
theorem C1_witness :
    c1w6.displays ≤ 1 ∧
    (∀ i, c1w6.procs i = PSt.displaying → c1w6.displays = 1) ∧
    (∀ i, c1w6.procs i = PSt.attached → c1w6.displays = 1) ∧
    (∀ i j, isCritical (c1w6.procs i) = true →
      isCritical (c1w6.procs j) = true → i = j) :=
  C1_at_most_one_display 2 c1w6 c1_trace (by decide)

/-- C2: an invocation that exhausts the wait budget and finds the lock
file older than the staleness threshold removes the lock file and retries
(the retry runs with the lock gone, and the result is the retry's result
with the recursion counted once); the retry itself performs no further
stale-reclaim recursion and terminates (fuel 2 never runs out), so at
most one stale-reclaim recursion occurs per invocation. -/
theorem C2_stale_reclaim_once (cfg : RunCfg) (obs : Nat → RoundObs)
    (hf : cfg.found = true) (hc : cfg.useChrome = false)
    (hbg : cfg.isBackground = false)
    (hw : (obs 0).windowOpen0 = false)
    (hp : firstPoll (obs 0).windowPoll = none)
    (hst : staleThresholdMs < (obs 0).lockAgeMs) :
    runSeq cfg obs 2 0 true =
      ⟨(runSeq cfg obs 1 1 false).outcome,
       (runSeq cfg obs 1 1 false).lockAfter,
       (runSeq cfg obs 1 1 false).retries + 1⟩ ∧
    (runSeq cfg obs 1 1 false).retries = 0 ∧
    (runSeq cfg obs 1 1 false).outcome ≠ .fuelOut := by
  refine ⟨?_, (runSeq_noLock cfg obs 0 1).1, (runSeq_noLock cfg obs 0 1).2⟩
  conv_lhs => rw [runSeq]
  simp [hf, hc, hbg, hw, hp, hst]

/-- Observations used by witnesses: the stale-lock round followed by a
clean start. -/
def obsStale : Nat → RoundObs :=
  fun r =>
    if r = 0 then ⟨false, false, fun _ => false, 30000, true, true, true⟩
    else ⟨false, false, fun _ => false, 0, true, true, true⟩

/-- Foreground native-mode configuration used by witnesses. -/
def cfgFg : RunCfg :=
  ⟨true, false, false, ⟨false, false, false, false, false, false, false, false⟩⟩

/-- Witness for C2: a 30-second-old lock with no window leads to one
reclaim recursion whose retry acquires the lock and starts the worker. -/
theorem C2_witness :
    runSeq cfgFg obsStale 2 0 true =
      ⟨(runSeq cfgFg obsStale 1 1 false).outcome,
       (runSeq cfgFg obsStale 1 1 false).lockAfter,
       (runSeq cfgFg obsStale 1 1 false).retries + 1⟩ ∧
    (runSeq cfgFg obsStale 1 1 false).retries = 0 ∧
    (runSeq cfgFg obsStale 1 1 false).outcome ≠ .fuelOut :=
  C2_stale_reclaim_once cfgFg obsStale rfl rfl rfl rfl (by decide) (by decide)

/-- C3: a losing invocation (no window at the initial probe, O_EXCL
create fails) polls the matcher pollAttempts = 20 times at
pollIntervalMs = 200 ms, a 4-second wait budget; if a window appears at
some poll it takes the focus path without spawning anything, and if the
budget elapses with the lock younger than the 10-second staleness
threshold it returns the timeout error, leaving the lock in place and
starting no display process. -/
theorem C3_wait_loop (cfg : RunCfg) (obs : Nat → RoundObs)
    (hf : cfg.found = true) (hc : cfg.useChrome = false)
    (hbg : cfg.isBackground = false)
    (hw : (obs 0).windowOpen0 = false) :
    pollAttempts = 20 ∧ pollIntervalMs = 200 ∧ waitBudgetMs = 4000 ∧
    (∀ i, firstPoll (obs 0).windowPoll = some i →
      runSeq cfg obs 1 0 true = ⟨.focusResult (obs 0).focusOk, true, 0⟩) ∧
    (firstPoll (obs 0).windowPoll = none →
      (obs 0).lockAgeMs < staleThresholdMs →
      runSeq cfg obs 1 0 true = ⟨.errTimeout, true, 0⟩) := by
  refine ⟨rfl, rfl, rfl, ?_, ?_⟩
  · intro i hi
    conv_lhs => rw [runSeq]
    simp [hf, hc, hbg, hw, hi]
  · intro hn hyoung
    have hns : ¬ staleThresholdMs < (obs 0).lockAgeMs := by omega
    conv_lhs => rw [runSeq]
    simp [hf, hc, hbg, hw, hn, hns]

/-- Observations where the window appears at the third poll. -/
def obsAppears : Nat → RoundObs :=
  fun _ => ⟨false, false, fun i => decide (2 ≤ i), 0, true, true, true⟩

/-- Witness for C3 at a run where the window appears at poll 2. -/
theorem C3_witness :
    pollAttempts = 20 ∧ pollIntervalMs = 200 ∧ waitBudgetMs = 4000 ∧
    (∀ i, firstPoll (obsAppears 0).windowPoll = some i →
      runSeq cfgFg obsAppears 1 0 true =
        ⟨.focusResult (obsAppears 0).focusOk, true, 0⟩) ∧
    (firstPoll (obsAppears 0).windowPoll = none →
      (obsAppears 0).lockAgeMs < staleThresholdMs →
      runSeq cfgFg obsAppears 1 0 true = ⟨.errTimeout, true, 0⟩) :=
  C3_wait_loop cfgFg obsAppears rfl rfl rfl rfl

/-- Background worker configuration used by C4. -/
def cfgBg : RunCfg :=
  ⟨true, false, true, ⟨false, false, false, false, false, false, false, false⟩⟩

/-- Observations where the window already exists at the worker's initial
probe (main.go line 806). -/
def obsOpenAtFirst : Nat → RoundObs :=
  fun _ => ⟨true, true, fun _ => false, 0, true, true, true⟩

/-- Observations where the window appears only between the worker's
initial probe and its double-check (main.go line 825). -/
def obsOpenAtRecheck : Nat → RoundObs :=
  fun _ => ⟨false, true, fun _ => false, 0, true, true, true⟩

/-- C4 fails on the code: when the background worker (WEBLET_BACKGROUND=1)
finds the window already open at its initial probe, it returns at main.go
line 810, before the deferred lock removal of line 822 is registered, so
it exits with the lock file still present.  The double-check path (line
825), by contrast, does remove the lock. -/
theorem C4_lock_left_behind :
    runSeq cfgBg obsOpenAtFirst 1 0 true = ⟨.backgroundNoop, true, 0⟩ ∧
    runSeq cfgBg obsOpenAtRecheck 1 0 true = ⟨.backgroundClean, false, 0⟩ := by
  constructor <;> rfl

/-- Observations where the window is open but every focus mechanism
fails. -/
def obsFocusFails : Nat → RoundObs :=
  fun _ => ⟨true, true, fun _ => false, 0, false, true, true⟩

/-- C7 fails on the code for native mode: with the weblet in native mode,
the window confirmed open, and every focus mechanism failing,
Run returns the focusWindowByTitle error and the process exits 1, not 0. -/
theorem C7_counterexample :
    (runSeq cfgFg obsFocusFails 1 0 false).outcome = .focusResult false ∧
    exitCode (runSeq cfgFg obsFocusFails 1 0 false).outcome = 1 := by
  constructor <;> rfl

/-- C7 amended: only in Chrome mode, when the running instance is
detected by the Chrome process scan (user-data-dir in /proc cmdline),
does a total focus failure stay a soft note: runWithChrome returns nil
regardless of the focus result and the process exits 0. -/
theorem C7_chrome_soft_warning (e : ChromeEnv)
    (h : e.chromeProcRunning = true) :
    runWithChrome e = .focusedNote e.focusAnyOk ∧
    exitCode (.chrome (runWithChrome e)) = 0 := by
  rw [runWithChrome]
  simp [h, exitCode, chromeExitCode]

/-- Witness for the amended C7: Chrome process detected, every focus
mechanism failing, exit code 0. -/
theorem C7_witness :
    runWithChrome ⟨true, false, true, false, true, false, true, true⟩ =
      .focusedNote false ∧
    exitCode (.chrome (runWithChrome
      ⟨true, false, true, false, true, false, true, true⟩)) = 0 :=
  C7_chrome_soft_warning ⟨true, false, true, false, true, false, true, true⟩ rfl

/-- C8: an invocation that acquires the lock (O_EXCL succeeds, so the
lock was absent) and then fails to spawn the detached worker — executable
resolution failing (main.go line 857) or cmd.Start failing (line 880) —
removes the lock file (lines 859, 881) and reports the spawn error, so
the lock is never left behind by a spawn failure. -/
theorem C8_spawn_failure_releases (cfg : RunCfg) (obs : Nat → RoundObs)
    (hf : cfg.found = true) (hc : cfg.useChrome = false)
    (hbg : cfg.isBackground = false)
    (hw : (obs 0).windowOpen0 = false)
    (hsp : (obs 0).execOk = false ∨ (obs 0).startOk = false) :
    runSeq cfg obs 1 0 false = ⟨.errSpawn, false, 0⟩ := by
  conv_lhs => rw [runSeq]
  rcases hsp with h | h
  · simp [hf, hc, hbg, hw, h]
  · simp [hf, hc, hbg, hw, h]

/-- Observations where cmd.Start fails. -/
def obsStartFails : Nat → RoundObs :=
  fun _ => ⟨false, false, fun _ => false, 0, true, true, false⟩

/-- Witness for C8: lock acquired, start fails, lock released with the
error. -/
theorem C8_witness :
    runSeq cfgFg obsStartFails 1 0 false = ⟨.errSpawn, false, 0⟩ :=
  C8_spawn_failure_releases cfgFg obsStartFails rfl rfl rfl rfl (Or.inr rfl)

/-- C5: the focuser scans the class listing first with the normalized
token "weblet-<name>" (exact, prefix with ".", suffix with ".", or
containment, case-insensitively); whenever any window class-matches, the
selection is the first class-matching window's id, and no window is ever
selected by the title fallback — class match outranks title match. -/
theorem C5_cls_over_title (name : GoStr) (lines : List Line)
    (lw : Option (List Line)) (w : Line) (hw : w ∈ lines)
    (hm : clsMatches (clsToken name) w = true) :
    ∃ v, v ∈ lines ∧ clsMatches (clsToken name) v = true ∧
      focusWindowByTitle name (some lines) lw = .byCls (v.getD 0 []) ∧
      ∀ id, focusWindowByTitle name (some lines) lw ≠ .byTitle id := by
  cases hfind : lines.find? (clsMatches (clsToken name)) with
  | none =>
      exact absurd hm (List.find?_eq_none.mp hfind w hw)
  | some v =>
      refine ⟨v, List.mem_of_find?_eq_some hfind, List.find?_some hfind,
        ?_, ?_⟩
      · simp [focusWindowByTitle, hfind]
      · intro id
        simp [focusWindowByTitle, hfind]

/-- The weblet name used by the matcher witnesses. -/
def discordName : GoStr := "discord".toList

/-- A window whose title merely contains the name ("my discord chat"),
but whose class is unrelated. -/
def winTitleOnly : Line :=
  ["0x1".toList, "0".toList, "Navigator.Firefox".toList, "host".toList,
   "my".toList, "discord".toList, "chat".toList]

/-- A window whose class matches the weblet token exactly
("weblet-discord.weblet-discord"). -/
def winClsExact : Line :=
  ["0x2".toList, "0".toList, "weblet-discord.weblet-discord".toList,
   "host".toList, "Discord".toList]

/-- Witness for C5: with the title-only window listed first, the
class-matching window is still the one selected. -/
theorem C5_witness :
    ∃ v, v ∈ [winTitleOnly, winClsExact] ∧
      clsMatches (clsToken discordName) v = true ∧
      focusWindowByTitle discordName (some [winTitleOnly, winClsExact])
        (some [winTitleOnly, winClsExact]) = .byCls (v.getD 0 []) ∧
      ∀ id, focusWindowByTitle discordName (some [winTitleOnly, winClsExact])
        (some [winTitleOnly, winClsExact]) ≠ .byTitle id :=
  C5_cls_over_title discordName [winTitleOnly, winClsExact]
    (some [winTitleOnly, winClsExact]) winClsExact (by decide) (by decide)

/-- C6: when wmctrl is unavailable or errors (both its invocations fail),
the window probe reports "no window" — a plain false, with no error to
propagate, since isWebletWindowOpen returns a bare Bool. -/
theorem C6_tool_failure_absorbed (name : GoStr) :
    isWebletWindowOpen name none none = false := rfl

/-- Witness for C6 at a concrete name. -/
theorem C6_witness : isWebletWindowOpen discordName none none = false :=
  C6_tool_failure_absorbed discordName

/-- C9: for a URL whose host, after stripping a leading "www.", has at
least two dot-separated labels (so the second-level label sld exists),
the Chrome-title matcher accepts any window of at least 4 fields whose
title contains — case-insensitively — the name or the second-level
domain label; in particular containment of the raw name or the raw label
as provided also yields a match, since lowering preserves containment. -/
theorem C9_derived_title (name host : GoStr) (lines : List Line)
    (w : Line) (sld : GoStr) (hw : w ∈ lines) (hlen : 4 ≤ w.length)
    (hsld : sldOf host = some sld)
    (hm : containsSub (lower (titleOf w)) (lower name) = true ∨
          containsSub (lower (titleOf w)) (lower sld) = true ∨
          containsSub (titleOf w) name = true ∨
          containsSub (titleOf w) sld = true) :
    isChromeWebletWindowOpen name (some host) (some lines) = true := by
  have hpt : possibleTitles name (some host) = [lower name, lower sld] := by
    simp [possibleTitles, hsld]
  have hln : containsSub (lower (titleOf w)) (lower name) = true ∨
      containsSub (lower (titleOf w)) (lower sld) = true := by
    rcases hm with h | h | h | h
    · exact Or.inl h
    · exact Or.inr h
    · exact Or.inl (containsSub_map_toLower _ _ h)
    · exact Or.inr (containsSub_map_toLower _ _ h)
  have hcm : chromeTitleMatches (possibleTitles name (some host)) w = true := by
    rw [hpt]
    simp only [chromeTitleMatches, if_pos hlen, List.any_cons, List.any_nil,
      Bool.or_false, Bool.or_eq_true]
    exact hln
  show lines.any (chromeTitleMatches (possibleTitles name (some host))) = true
  exact List.any_eq_true.mpr ⟨w, hw, hcm⟩

/-- The host used by the C9 witness. -/
def discordHost : GoStr := "app.discord.com".toList

/-- A Chrome app window titled "Discord". -/
def winChrome : Line :=
  ["0x9".toList, "0".toList, "host".toList, "Discord".toList]

/-- Witness for C9: host app.discord.com yields the label "discord", and
the window titled "Discord" matches via the lowercased name. -/
theorem C9_witness :
    isChromeWebletWindowOpen discordName (some discordHost)
      (some [winChrome]) = true :=
  C9_derived_title discordName discordHost [winChrome] winChrome
    "discord".toList (by decide) (by decide) (by decide)
    (Or.inl (by decide))

/-- One entry of the weblet map (the Weblet struct, main.go lines
655-660). -/
structure WebletRec where
  name : GoStr
  url : GoStr
  pid : Int
  useChrome : Bool
  deriving DecidableEq, Repr

/-- WebletManager.Add (main.go lines 1009-1030) restricted to its effect
on the in-memory map: reject an existing name with an error, otherwise
insert {Name: name, URL: url, UseChrome: true} (PID zero).  The returned
Bool is the error flag; `saveErr` is whether the subsequent saveWeblets
fails (which Add propagates after the insertion). -/
def addWeblet (m : GoStr → Option WebletRec) (name url : GoStr)
    (saveErr : Bool) : (GoStr → Option WebletRec) × Bool :=
  match m name with
  | some _ => (m, true)
  | none =>
      (fun k => if k = name then some ⟨name, url, 0, true⟩ else m k, saveErr)

/-- C10: if the name is already a key, Add returns an error and the map
is returned unchanged (it is literally the same map); otherwise exactly
the entry {Name: name, URL: url, PID: 0, UseChrome: true} is inserted
under the name and every other key is unchanged. -/
theorem C10_add (m : GoStr → Option WebletRec) (name url : GoStr)
    (saveErr : Bool) :
    (∀ w, m name = some w → addWeblet m name url saveErr = (m, true)) ∧
    (m name = none →
      (addWeblet m name url saveErr).1 name = some ⟨name, url, 0, true⟩ ∧
      ∀ k, k ≠ name → (addWeblet m name url saveErr).1 k = m k) := by
  constructor
  · intro w hwm
    simp [addWeblet, hwm]
  · intro hn
    constructor
    · simp [addWeblet, hn]
    · intro k hk
      simp [addWeblet, hn, hk]

/-- A one-entry map used by the C10 witness. -/
def mapOne : GoStr → Option WebletRec :=
  fun k => if k = discordName then
    some ⟨discordName, "https://discord.com/app".toList, 0, true⟩ else none

/-- Witness for C10 on a map already containing "discord". -/
theorem C10_witness :
    (∀ w, mapOne discordName = some w →
      addWeblet mapOne discordName "u".toList false = (mapOne, true)) ∧
    (mapOne discordName = none →
      (addWeblet mapOne discordName "u".toList false).1 discordName =
        some ⟨discordName, "u".toList, 0, true⟩ ∧
      ∀ k, k ≠ discordName →
        (addWeblet mapOne discordName "u".toList false).1 k = mapOne k) :=
  C10_add mapOne discordName "u".toList false

end WebletSpec
